import Mathlib

/-!
Verification development for `colour/colorimetry/tristimulus.py`.

The module is embedded shallowly over `ℚ`: the Python code computes with
floating point numbers, but every operation it performs (sums, products,
divisions, Lagrange coefficient evaluation) is rational, so exact rational
arithmetic is the natural idealisation.  Module-level mutable caches become
explicit cache values threaded through the two builder functions.  Helper
code that lives outside this repository (the `lagrange_coefficients` routine
of `colour.algebra`, the spectral data structures, the case-insensitive
mapping, the interpolator classes) is modelled from the specification, as
marked on each such definition.
-/

/-- Modelled from the spec: Python's `str.lower` as used by
`CaseInsensitiveMapping` and by the method dispatch of `wavelength_to_XYZ`
(only ASCII names occur). -/
def lowerStr (s : String) : String :=
  String.mk (s.data.map Char.toLower)

/-- Modelled from the spec: `colour.utilities.CaseInsensitiveMapping` lookup.
The mapping compares keys case-insensitively; we store keys lowercased in an
association list, which is observationally the same. -/
def cacheFind {α : Type} (c : List (String × α)) (k : String) : Option α :=
  (c.find? (fun p => p.1 == lowerStr k)).map (fun p => p.2)

/-- Modelled from the spec: `CaseInsensitiveMapping` insertion (a Python dict
assignment; the new binding shadows any previous one). -/
def cacheInsert {α : Type} (c : List (String × α)) (k : String) (v : α) :
    List (String × α) :=
  (lowerStr k, v) :: c

/-- Modelled from the spec: `SpectralShape {start, end, interval}`.  The field
`stop` models the Python attribute `end` (a reserved word here). -/
structure SpectralShape where
  start : ℚ
  stop : ℚ
  interval : ℚ
deriving DecidableEq

/-- Modelled from the spec: the number of points of the discrete wavelength
grid `start, start+interval, …, end`. -/
def SpectralShape.count (s : SpectralShape) : ℕ :=
  ((s.stop - s.start) / s.interval).floor.toNat + 1

/-- Modelled from the spec: the discrete wavelength grid of a shape. -/
def SpectralShape.range (s : SpectralShape) : List ℚ :=
  (List.range s.count).map (fun (i : ℕ) => s.start + (i : ℚ) * s.interval)

/-- Modelled from the spec: the string rendering `str(shape)` used inside the
weighting-factor cache key.  Only its injectivity on the shapes at play
matters; we render the three fields. -/
def shapeStr (s : SpectralShape) : String :=
  "(" ++ toString s.start ++ ", " ++ toString s.stop ++ ", " ++ toString s.interval ++ ")"

/-- Modelled from the spec: a `SpectralPowerDistribution` — a named ordered
mapping from wavelength to value together with its associated shape. -/
structure SPD where
  name : String
  shape : SpectralShape
  data : List (ℚ × ℚ)
deriving DecidableEq

/-- The `values` array of an SPD (Python `spd.values`). -/
def SPD.values (spd : SPD) : List ℚ :=
  spd.data.map (fun p => p.2)

/-- The `wavelengths` array of an SPD. -/
def SPD.wavelengths (spd : SPD) : List ℚ :=
  spd.data.map (fun p => p.1)

/-- Modelled from the spec: value lookup in an association list with a
default, the primitive behind resampling and `cmfs.get`. -/
def lookupD {α : Type} (data : List (ℚ × α)) (w : ℚ) (d : α) : α :=
  (((data.find? (fun p => decide (p.1 = w))).map (fun p => p.2)).getD d)

/-- Modelled from the spec: `spd.clone().zeros(shape)` — a new SPD on the
requested shape's grid, zero-filled outside the original domain. -/
def SPD.zeros (spd : SPD) (shape : SpectralShape) : SPD :=
  ⟨spd.name, shape, shape.range.map (fun w => (w, lookupD spd.data w 0))⟩

/-- Modelled from the spec: `ones_spd(shape)` — the uniform all-ones SPD over
a shape's grid. -/
def ones_spd (shape : SpectralShape) : SPD :=
  ⟨"1 Constant", shape, shape.range.map (fun w => (w, 1))⟩

/-- Modelled from the spec: colour matching functions — three co-indexed
channels (x̄, ȳ, z̄) sharing one shape, with a name.  Each data entry is
`(wavelength, (x̄, ȳ, z̄))`. -/
structure CMFS where
  name : String
  shape : SpectralShape
  data : List (ℚ × ℚ × ℚ × ℚ)
deriving DecidableEq

/-- The `values` array of a CMFS: one (x̄, ȳ, z̄) row per wavelength. -/
def CMFS.values (c : CMFS) : List (ℚ × ℚ × ℚ) :=
  c.data.map (fun p => p.2)

/-- The wavelengths of a CMFS. -/
def CMFS.wavelengths (c : CMFS) : List ℚ :=
  c.data.map (fun p => p.1)

/-- The x̄ channel values. -/
def CMFS.x_bar (c : CMFS) : List ℚ :=
  c.data.map (fun p => p.2.1)

/-- The ȳ channel values. -/
def CMFS.y_bar (c : CMFS) : List ℚ :=
  c.data.map (fun p => p.2.2.1)

/-- The z̄ channel values. -/
def CMFS.z_bar (c : CMFS) : List ℚ :=
  c.data.map (fun p => p.2.2.2)

/-- Successive differences of a list, used for the uniformity test. -/
def diffsQ : List ℚ → List ℚ
  | a :: b :: rest => (b - a) :: diffsQ (b :: rest)
  | _ => []

/-- Modelled from the spec: `cmfs.is_uniform()` — the uniformity flag, true
when the sample spacing is constant. -/
def CMFS.is_uniform (c : CMFS) : Bool :=
  match diffsQ c.wavelengths with
  | [] => true
  | d :: ds => ds.all (fun x => decide (x = d))

/-- Modelled from the spec: `np.linspace a b num` with endpoint inclusion
(`num = 1` yields `[a]`, as in numpy). -/
def linspace (a b : ℚ) (num : ℕ) : List ℚ :=
  if num = 0 then []
  else if num = 1 then [a]
  else (List.range num).map (fun (i : ℕ) => a + (i : ℚ) * (b - a) / ((num : ℚ) - 1))

/-- Modelled from the spec: `colour.algebra.lagrange_coefficients r n` — the
`n` Lagrange basis coefficients at node positions `0 … n-1` evaluated at `r`
(the routine itself is not under `src/`; the spec's literal reference matrices
fix the row width to `n`). -/
def lagrange_coefficients (r : ℚ) (n : ℕ) : List ℚ :=
  (List.range n).map (fun (j : ℕ) =>
    (((List.range n).filter (fun (i : ℕ) => i ≠ j)).map
      (fun (i : ℕ) => (r - (i : ℚ)) / ((j : ℚ) - (i : ℚ)))).prod)

/-- The pure computation of `lagrange_coefficients_ASTME202211` (source lines
118–125): evaluation points `n/interval` for `n = 1 … interval-1`, shifted by
`+1` with degree parameter 4 for an inner interval, degree parameter 3 for a
boundary interval. -/
def lagrange_coefficients_ASTME202211_compute (interval : ℕ) (interval_type : String) :
    List (List ℚ) :=
  let r_n := linspace (1 / (interval : ℚ)) (1 - 1 / (interval : ℚ)) (interval - 1)
  let inner := lowerStr interval_type == "inner"
  let r_n' := if inner then r_n.map (fun r => r + 1) else r_n
  let d : ℕ := if inner then 4 else 3
  r_n'.map (fun r => lagrange_coefficients r d)

/-- The Lagrange coefficients cache (module global `_LAGRANGE_INTERPOLATING_COEFFICIENTS_CACHE`),
made an explicit value. -/
abbrev LagrangeCache := List (String × List (List ℚ))

/-- `lagrange_coefficients_ASTME202211` with the module-level cache passed
explicitly: on a hit under the key `str(interval) ++ ", " ++ interval_type`
the memoized matrix is returned and the cache is unchanged; on a miss the
matrix is computed and inserted. -/
def lagrange_coefficients_ASTME202211 (cache : LagrangeCache) (interval : ℕ)
    (interval_type : String) : List (List ℚ) × LagrangeCache :=
  let name_lica := toString interval ++ ", " ++ interval_type
  match cacheFind cache name_lica with
  | some lica => (lica, cache)
  | none =>
      let lica := lagrange_coefficients_ASTME202211_compute interval interval_type
      (lica, cacheInsert cache name_lica lica)

/-- Channel selection `t[i]` for a tristimulus triple (channel index 0, 1, 2). -/
def tripleGet (t : ℚ × ℚ × ℚ) (ch : ℕ) : ℚ :=
  if ch = 0 then t.1 else if ch = 1 then t.2.1 else if ch = 2 then t.2.2 else 0

/-- In-place accumulation `t[ch] := t[ch] + d` on a tristimulus triple. -/
def tripleAdd (t : ℚ × ℚ × ℚ) (ch : ℕ) (d : ℚ) : ℚ × ℚ × ℚ :=
  if ch = 0 then (t.1 + d, t.2.1, t.2.2)
  else if ch = 1 then (t.1, t.2.1 + d, t.2.2)
  else if ch = 2 then (t.1, t.2.1, t.2.2 + d)
  else t

/-- Python sequence index resolution: a negative index counts from the end
(the code only produces indices a Python list accepts on well-shaped data). -/
def pyIdx (len : ℕ) (i : ℤ) : ℕ :=
  if 0 ≤ i then i.toNat else len - (-i).toNat

/-- Read `l[i]` with Python index semantics, defaulting to `0`. -/
def getQ (l : List ℚ) (i : ℤ) : ℚ :=
  l.getD (pyIdx l.length i) 0

/-- Read a triple row `l[i]` with Python index semantics. -/
def getT (l : List (ℚ × ℚ × ℚ)) (i : ℤ) : ℚ × ℚ × ℚ :=
  l.getD (pyIdx l.length i) (0, 0, 0)

/-- Read `m[r][c]` of a coefficient matrix, defaulting to `0`. -/
def mget (m : List (List ℚ)) (r c : ℕ) : ℚ :=
  (m.getD r []).getD c 0

/-- The statement `W[idx, i] = W[idx, i] + d` of the accumulation loops. -/
def addAt (W : List (ℚ × ℚ × ℚ)) (idx : ℤ) (ch : ℕ) (d : ℚ) : List (ℚ × ℚ × ℚ) :=
  let j := pyIdx W.length idx
  W.set j (tripleAdd (W.getD j (0, 0, 0)) ch d)

/-- Strided slice `l[::k]` (for the positive integer steps the code uses). -/
def sliceEvery {α : Type} (l : List α) (k : ℕ) : List α :=
  (l.enum.filter (fun p => p.1 % k == 0)).map (fun p => p.2)

/-- First measurement interval correction of
`tristimulus_weighting_factors_ASTME202211` (source lines 266–269): each of
the `r_c` fine points after the first macro sample distributes
`c_c[j][k] * S[j+1] * Y[j+1][i]` into rows 0, 1, 2 of channel `i`. -/
def firstIntervalPhase (c_c : List (List ℚ)) (S : List ℚ) (Y : List (ℚ × ℚ × ℚ))
    (r_c : ℕ) (i : ℕ) (W : List (ℚ × ℚ × ℚ)) : List (ℚ × ℚ × ℚ) :=
  (List.range r_c).foldl (fun W (j : ℕ) =>
    (List.range 3).foldl (fun W (k : ℕ) =>
      addAt W (k : ℤ) i
        (mget c_c j k * getQ S ((j : ℤ) + 1) * tripleGet (getT Y ((j : ℤ) + 1)) i)) W) W

/-- Last measurement interval correction (source lines 271–275): boundary
coefficients applied in reverse index order into the final three rows; the
inner loop of the source runs `k = i_cm, i_cm-1, i_cm-2` and reads
`c_c[r_c-j-1][i_cm-k]`, i.e. column `m = i_cm - k`. -/
def lastIntervalPhase (c_c : List (List ℚ)) (S : List ℚ) (Y : List (ℚ × ℚ × ℚ))
    (r_c : ℕ) (i_cm w_lif : ℤ) (i : ℕ) (W : List (ℚ × ℚ × ℚ)) : List (ℚ × ℚ × ℚ) :=
  (List.range r_c).foldl (fun W (j : ℕ) =>
    (List.range 3).foldl (fun W (m : ℕ) =>
      addAt W (i_cm - (m : ℤ)) i
        (mget c_c (r_c - j - 1) m * getQ S ((j : ℤ) + w_lif) *
          tripleGet (getT Y ((j : ℤ) + w_lif)) i)) W) W

/-- Intermediate intervals (source lines 277–284): each fine sample
`w_i = (r_c+1)(j+1)+1+k` contributes to rows `j, j+1, j+2, j+3` with the inner
coefficients `c_b[k][0..3]`, in that order. -/
def intermediatePhase (c_b : List (List ℚ)) (S : List ℚ) (Y : List (ℚ × ℚ × ℚ))
    (i_c r_c : ℕ) (i : ℕ) (W : List (ℚ × ℚ × ℚ)) : List (ℚ × ℚ × ℚ) :=
  (List.range (i_c - 3)).foldl (fun W (j : ℕ) =>
    (List.range r_c).foldl (fun W (k : ℕ) =>
      let w_i := (r_c + 1) * (j + 1) + 1 + k
      let p := fun (m : ℕ) => mget c_b k m * getQ S (w_i : ℤ) * tripleGet (getT Y (w_i : ℤ)) i
      addAt (addAt (addAt (addAt W (j : ℤ) i (p 0)) ((j : ℤ) + 1) i (p 1))
        ((j : ℤ) + 2) i (p 2)) ((j : ℤ) + 3) i (p 3)) W) W

/-- Extrapolation of the incomplete tail interval (source lines 286–288): the
`(w_c - 1) % k` wavelengths past the last complete interval are summed
unweighted into the last row. -/
def tailPhase (S : List ℚ) (Y : List (ℚ × ℚ × ℚ)) (w_c rem : ℕ) (i_cm : ℤ)
    (i : ℕ) (W : List (ℚ × ℚ × ℚ)) : List (ℚ × ℚ × ℚ) :=
  (List.range rem).foldl (fun W (j' : ℕ) =>
    let j := w_c - rem + j'
    addAt W i_cm i (getQ S (j : ℤ) * tripleGet (getT Y (j : ℤ)) i)) W

/-- The slice step `shape.interval` as a natural number.  Python requires an
integer step; on the integral intervals the code is used with this is exact. -/
def ratStep (q : ℚ) : ℕ :=
  q.floor.toNat

/-- The accumulation part of `tristimulus_weighting_factors_ASTME202211`
(source lines 244–288), before normalization: the downsampled base matrix
`W = S[::k] * Y[::k]` followed by the four correction phases applied to each
of the three channels in turn.  The boundary and inner coefficient matrices
are taken from the pure Lagrange computation, whose value coincides with the
cached builder's. -/
def tristimulus_weighting_factors_accumulate (cmfs : CMFS) (illuminant : SPD)
    (shape : SpectralShape) : List (ℚ × ℚ × ℚ) :=
  let Y := cmfs.values
  let S := illuminant.values
  let k := ratStep shape.interval
  let W0 := List.zipWith (fun s t => (s * t.1, s * t.2.1, s * t.2.2))
    (sliceEvery S k) (sliceEvery Y k)
  let c_c := lagrange_coefficients_ASTME202211_compute k "boundary"
  let c_b := lagrange_coefficients_ASTME202211_compute k "inner"
  let w_c := Y.length
  let r_c := c_b.length
  let w_lif : ℤ := (w_c : ℤ) - ((w_c : ℤ) - 1) % (k : ℤ) - 1 - (r_c : ℤ)
  let i_c := W0.length
  let i_cm : ℤ := (i_c : ℤ) - 1
  let rem := (w_c - 1) % k
  (List.range 3).foldl (fun W i =>
    tailPhase S Y w_c rem i_cm i
      (intermediatePhase c_b S Y i_c r_c i
        (lastIntervalPhase c_c S Y r_c i_cm w_lif i
          (firstIntervalPhase c_c S Y r_c i W)))) W0

/-- Sum of the second (Y / luminance) column of a weighting table. -/
def twfYSum (W : List (ℚ × ℚ × ℚ)) : ℚ :=
  (W.map (fun t => t.2.1)).sum

/-- The full weighting-factor computation: accumulate, then scale the whole
table by `100 / sum(W, axis=0)[1]` (source line 290). -/
def tristimulus_weighting_factors_compute (cmfs : CMFS) (illuminant : SPD)
    (shape : SpectralShape) : List (ℚ × ℚ × ℚ) :=
  let W := tristimulus_weighting_factors_accumulate cmfs illuminant shape
  let n := 100 / twfYSum W
  W.map (fun t => (t.1 * n, t.2.1 * n, t.2.2 * n))

/-- The interval-mismatch `ValueError` message (source lines 230 and 233–234);
the Python format inserts the operand's rendering, which names it. -/
def intervalErrorMsg (name : String) : String :=
  "\"" ++ name ++ "\" shape \"interval\" must be 1!"

/-- The weighting-factors cache (module global `_TRISTIMULUS_WEIGHTING_FACTORS_CACHE`),
made an explicit value. -/
abbrev TwfCache := List (String × List (ℚ × ℚ × ℚ))

/-- `tristimulus_weighting_factors_ASTME202211` with the module-level cache
passed explicitly.  The two unit-interval checks come first (source lines
229–234); only then is the cache consulted under the key
`cmfs.name ++ ", " ++ illuminant.name ++ ", " ++ str(shape)`; a fresh result
is computed and inserted on a miss. -/
def tristimulus_weighting_factors_ASTME202211 (cache : TwfCache) (cmfs : CMFS)
    (illuminant : SPD) (shape : SpectralShape) :
    Except String (List (ℚ × ℚ × ℚ)) × TwfCache :=
  if cmfs.shape.interval ≠ 1 then
    (Except.error (intervalErrorMsg cmfs.name), cache)
  else if illuminant.shape.interval ≠ 1 then
    (Except.error (intervalErrorMsg illuminant.name), cache)
  else
    let name_twf := cmfs.name ++ ", " ++ illuminant.name ++ ", " ++ shapeStr shape
    match cacheFind cache name_twf with
    | some W => (Except.ok W, cache)
    | none =>
        let W := tristimulus_weighting_factors_compute cmfs illuminant shape
        (Except.ok W, cacheInsert cache name_twf W)

/-- `spectral_to_XYZ` (source lines 345–371): resample the SPD to the CMFS
shape when the shapes differ, default a missing illuminant to the all-ones
SPD on the CMFS shape (resampling a given one likewise), form the elementwise
products `spd·x̄·I`, `spd·ȳ·I`, `spd·z̄·I`, and scale the three sums by
`100 / Σ(ȳ·I)`. -/
def spectral_to_XYZ (spd : SPD) (cmfs : CMFS) (illuminant : Option SPD) : ℚ × ℚ × ℚ :=
  let shape := cmfs.shape
  let spd' := if spd.shape ≠ cmfs.shape then spd.zeros shape else spd
  let ill := match illuminant with
    | none => ones_spd shape
    | some ill => if ill.shape ≠ cmfs.shape then ill.zeros shape else ill
  let s := spd'.values
  let I := ill.values
  let x_products := List.zipWith (· * ·) (List.zipWith (· * ·) s cmfs.x_bar) I
  let y_products := List.zipWith (· * ·) (List.zipWith (· * ·) s cmfs.y_bar) I
  let z_products := List.zipWith (· * ·) (List.zipWith (· * ·) s cmfs.z_bar) I
  let normalising_factor := 100 / (List.zipWith (· * ·) cmfs.y_bar I).sum
  (normalising_factor * x_products.sum,
   normalising_factor * y_products.sum,
   normalising_factor * z_products.sum)

/-- The spectral integrator exactly as the specification words it, for the
refinement comparison: the three sums run over the CMFS wavelength grid, the
resampled SPD / illuminant contribute their stored value at each grid point
(zero where absent), a missing illuminant contributes 1 everywhere, and all
three sums are normalized by `100 / Σ(ȳ·I)`. -/
def spectral_to_XYZ_spec (spd : SPD) (cmfs : CMFS) (illuminant : Option SPD) : ℚ × ℚ × ℚ :=
  let grid := cmfs.shape.range
  let sv := fun w => lookupD spd.data w 0
  let iv := fun w => match illuminant with
    | none => (1 : ℚ)
    | some ill => lookupD ill.data w 0
  let xv := fun w => (lookupD cmfs.data w (0, 0, 0)).1
  let yv := fun w => (lookupD cmfs.data w (0, 0, 0)).2.1
  let zv := fun w => (lookupD cmfs.data w (0, 0, 0)).2.2
  let nf := 100 / (grid.map (fun w => yv w * iv w)).sum
  (nf * (grid.map (fun w => sv w * xv w * iv w)).sum,
   nf * (grid.map (fun w => sv w * yv w * iv w)).sum,
   nf * (grid.map (fun w => sv w * zv w * iv w)).sum)

/-- The four interpolation strategies `wavelength_to_XYZ` dispatches among. -/
inductive InterpMethod
  | cubicSpline
  | linear
  | pchip
  | sprague
deriving DecidableEq

/-- The error taxonomy of `wavelength_to_XYZ`: out-of-domain wavelength
(Python `ValueError`, source lines 464–466), undefined interpolator name
(Python `ValueError`, source lines 496–497), Sprague forced on non-uniform
data (Python `RuntimeError`, source lines 491–494). -/
inductive WtError
  | domainRange (msg : String)
  | undefinedMethod (msg : String)
  | spragueSpacing (msg : String)
deriving DecidableEq

/-- The out-of-domain message: the Python format inserts the whole wavelength
argument and both bounds. -/
def domainErrorMsg (wl : List ℚ) (a b : ℚ) : String :=
  "\"" ++ toString wl ++ " nm\" wavelength is not in \"[" ++ toString a ++ ", "
    ++ toString b ++ "]\" domain!"

/-- The forced-Sprague-on-non-uniform-data message. -/
def spragueErrorMsg : String :=
  "\"Sprague\" interpolator can only be used for interpolating functions " ++
    "having a uniformly spaced independent variable!"

/-- The undefined-interpolator message; the source formats the already
lowercased method name. -/
def undefinedMethodMsg (m : String) : String :=
  "Undefined \"" ++ m ++ "\" interpolator!"

/-- `np.min` on a nonempty list (the code never applies it to an empty one). -/
def npMin : List ℚ → ℚ
  | [] => 0
  | x :: xs => xs.foldl min x

/-- `np.max` on a nonempty list. -/
def npMax : List ℚ → ℚ
  | [] => 0
  | x :: xs => xs.foldl max x

/-- The interpolator dispatch of `wavelength_to_XYZ` (source lines 471–497):
`None` auto-selects Sprague on uniform data and cubic spline otherwise; an
explicit name is lowercased and matched; `sprague` demands uniform spacing;
anything else is undefined. -/
def chooseInterpolator (method : Option String) (uniform : Bool) :
    Except WtError InterpMethod :=
  match method with
  | none => if uniform then Except.ok InterpMethod.sprague
            else Except.ok InterpMethod.cubicSpline
  | some s =>
      let m := lowerStr s
      if m == "cubic spline" then Except.ok InterpMethod.cubicSpline
      else if m == "linear" then Except.ok InterpMethod.linear
      else if m == "pchip" then Except.ok InterpMethod.pchip
      else if m == "sprague" then
        if uniform then Except.ok InterpMethod.sprague
        else Except.error (WtError.spragueSpacing spragueErrorMsg)
      else Except.error (WtError.undefinedMethod (undefinedMethodMsg m))

/-- One interpolation strategy instance per channel, each fitted to the CMFS
nodes and that channel's values, evaluated at every requested wavelength and
assembled into the trailing 3-vector axis (source lines 499–502).  The
strategies themselves are external collaborators, so the embedding is
parametric in their evaluation function `interpEval`. -/
def interpolateAll (interpEval : InterpMethod → List ℚ → List ℚ → ℚ → ℚ)
    (k : InterpMethod) (wl : List ℚ) (cmfs : CMFS) : List (ℚ × ℚ × ℚ) :=
  wl.map (fun w =>
    (interpEval k cmfs.wavelengths cmfs.x_bar w,
     interpEval k cmfs.wavelengths cmfs.y_bar w,
     interpEval k cmfs.wavelengths cmfs.z_bar w))

/-- `wavelength_to_XYZ` (source lines 461–507) on a 1-D wavelength array:
first the domain check against `[shape.start, shape.end]`; wavelengths that
all sit on stored grid points are returned from the CMFS directly (the
`Option InterpMethod` component records `none`: no interpolation); otherwise
an interpolator is selected — only in that branch is the method argument
validated — and every channel is interpolated.  The success payload carries
the selected strategy to make the dispatch observable. -/
def wavelength_to_XYZ (interpEval : InterpMethod → List ℚ → List ℚ → ℚ → ℚ)
    (wavelength : List ℚ) (cmfs : CMFS) (method : Option String) :
    Except WtError (Option InterpMethod × List (ℚ × ℚ × ℚ)) :=
  let shape := cmfs.shape
  if npMin wavelength < shape.start ∨ npMax wavelength > shape.stop then
    Except.error (WtError.domainRange (domainErrorMsg wavelength shape.start shape.stop))
  else if wavelength.all (fun w => decide (w ∈ cmfs.wavelengths)) then
    Except.ok (none, wavelength.map (fun w => lookupD cmfs.data w (0, 0, 0)))
  else
    match chooseInterpolator method cmfs.is_uniform with
    | Except.error e => Except.error e
    | Except.ok k => Except.ok (some k, interpolateAll interpEval k wavelength cmfs)

/-- A concrete unit-interval CMFS on wavelengths 0–4, used in witnesses. -/
def cmfsA : CMFS :=
  ⟨"cmfs A", ⟨0, 4, 1⟩, [(0, 1, 1, 1), (1, 1, 1, 1), (2, 1, 1, 1), (3, 1, 1, 1), (4, 1, 1, 1)]⟩

/-- A concrete unit-interval all-ones illuminant on wavelengths 0–4. -/
def illA : SPD :=
  ⟨"ill A", ⟨0, 4, 1⟩, [(0, 1), (1, 1), (2, 1), (3, 1), (4, 1)]⟩

/-- A concrete unit-interval all-zero illuminant on wavelengths 0–4. -/
def illZ : SPD :=
  ⟨"ill Z", ⟨0, 4, 1⟩, [(0, 0), (1, 0), (2, 0), (3, 0), (4, 0)]⟩

/-- A concrete 2 nm target shape for weighting-factor tables. -/
def shapeT : SpectralShape := ⟨0, 4, 2⟩

/-- A CMFS with the same name as `cmfsA` but different data content
(2 nm spacing). -/
def cmfsA2 : CMFS :=
  ⟨"cmfs A", ⟨0, 4, 2⟩, [(0, 1, 1, 1), (2, 1, 1, 1), (4, 1, 1, 1)]⟩

/-- A concrete CMFS for the integrator refinement witness. -/
def cmfsB : CMFS :=
  ⟨"cmfs B", ⟨0, 2, 1⟩, [(0, 1, 2, 3), (1, 1, 1, 1), (2, 2, 1, 0)]⟩

/-- A concrete SPD whose shape differs from `cmfsB`'s, to exercise
resampling. -/
def spdB : SPD :=
  ⟨"spd B", ⟨0, 1, 1⟩, [(0, 2), (1, 3)]⟩

/-- A concrete illuminant sharing `cmfsB`'s shape. -/
def illB : SPD :=
  ⟨"ill B", ⟨0, 2, 1⟩, [(0, 1), (1, 2), (2, 1)]⟩

/-- A concrete CMFS with 2 nm spacing for the dispatcher witnesses. -/
def cmfsG : CMFS :=
  ⟨"cmfs G", ⟨0, 4, 2⟩, [(0, 1, 0, 0), (2, 0, 1, 0), (4, 0, 0, 1)]⟩

/-- A trivial interpolation evaluator for witnesses (the dispatch claims hold
for every evaluator). -/
def interpZero : InterpMethod → List ℚ → List ℚ → ℚ → ℚ := fun _ _ _ _ => 0

/-- A CMFS with the same name and shape as `cmfsA` but different values, for
the memoization witness. -/
def cmfsA3 : CMFS :=
  ⟨"cmfs A", ⟨0, 4, 1⟩, [(0, 2, 2, 2), (1, 2, 2, 2), (2, 2, 2, 2), (3, 2, 2, 2), (4, 2, 2, 2)]⟩

lemma cacheFind_insert_self {α : Type} (c : List (String × α)) (k : String) (v : α) :
    cacheFind (cacheInsert c k v) k = some v := by
  simp [cacheFind, cacheInsert]

lemma linspace_length (a b : ℚ) (n : ℕ) : (linspace a b n).length = n := by
  unfold linspace
  split
  · simp [*]
  · split
    · simp [*]
    · simp

lemma lagrange_coefficients_length (r : ℚ) (n : ℕ) :
    (lagrange_coefficients r n).length = n := by
  simp [lagrange_coefficients]

lemma lowerStr_inner : lowerStr "inner" = "inner" := by decide

lemma lowerStr_boundary : lowerStr "boundary" = "boundary" := by decide

lemma boundary_ne_inner : "boundary" ≠ "inner" := by decide

lemma lagrange_ASTM_empty_cache (interval : ℕ) (ty : String) :
    (lagrange_coefficients_ASTME202211 [] interval ty).1
      = lagrange_coefficients_ASTME202211_compute interval ty := rfl

lemma list_range_map_sum (f : ℕ → ℚ) (n : ℕ) :
    ((List.range n).map f).sum = ∑ i ∈ Finset.range n, f i := by
  induction n with
  | zero => simp
  | succ m ih => rw [List.range_succ, Finset.sum_range_succ]; simp [ih]

lemma list_range_filter_map_prod (n j : ℕ) (f : ℕ → ℚ) :
    (((List.range n).filter (fun (i : ℕ) => i ≠ j)).map f).prod
      = ∏ i ∈ (Finset.range n).erase j, f i := by
  rw [Finset.prod_eq_multiset_prod, Finset.erase_val, Finset.range_val]
  show _ = Multiset.prod (Multiset.map f (Multiset.erase (↑(List.range n)) j))
  rw [Multiset.coe_erase, Multiset.map_coe, Multiset.prod_coe]
  rw [(List.nodup_range n).erase_eq_filter]
  have hp : (fun x : ℕ => x != j) = (fun i : ℕ => decide (i ≠ j)) := by
    funext x
    by_cases h : x = j <;> simp [h]
  rw [hp]

lemma lagrange_coefficients_sum (r : ℚ) (n : ℕ) (hn : 1 ≤ n) :
    (lagrange_coefficients r n).sum = 1 := by
  unfold lagrange_coefficients
  rw [list_range_map_sum]
  have key : ∀ j ∈ Finset.range n,
      (((List.range n).filter (fun (i : ℕ) => i ≠ j)).map
        (fun (i : ℕ) => (r - (i : ℚ)) / ((j : ℚ) - (i : ℚ)))).prod
      = Polynomial.eval r (Lagrange.basis (Finset.range n) (fun i => (i : ℚ)) j) := by
    intro j hj
    rw [list_range_filter_map_prod]
    rw [Lagrange.basis, Polynomial.eval_prod]
    refine Finset.prod_congr rfl (fun i hi => ?_)
    simp only [Lagrange.basisDivisor, Polynomial.eval_mul, Polynomial.eval_C,
      Polynomial.eval_sub, Polynomial.eval_X]
    rw [div_eq_mul_inv, mul_comm]
  rw [Finset.sum_congr rfl key, ← Polynomial.eval_finset_sum,
    Lagrange.sum_basis (Nat.cast_injective.injOn) ⟨0, Finset.mem_range.mpr hn⟩,
    Polynomial.eval_one]

/-- Claim C3: `lagrange_coefficients_ASTME202211 10 'inner'` is a 9×4 matrix
whose first row is approximately `[-0.0280, 0.9400, 0.1043, -0.0164]`, and
`lagrange_coefficients_ASTME202211 10 'boundary'` a 9×3 matrix whose first
row is approximately `[0.8517, 0.1968, -0.0486]`; "approximately" is
formalised as agreement within 1/100 (the exact first rows are
`[-57/2000, 1881/2000, 209/2000, -33/2000]` and `[171/200, 19/100, -9/200]`). -/
theorem lagrange_coefficients_ASTME202211_reference_values :
    (lagrange_coefficients_ASTME202211 [] 10 "inner").1.map List.length
        = List.replicate 9 4
    ∧ (lagrange_coefficients_ASTME202211 [] 10 "boundary").1.map List.length
        = List.replicate 9 3
    ∧ |((lagrange_coefficients_ASTME202211 [] 10 "inner").1.headD []).getD 0 0
        - (-280/10000)| < 1/100
    ∧ |((lagrange_coefficients_ASTME202211 [] 10 "inner").1.headD []).getD 1 0
        - 9400/10000| < 1/100
    ∧ |((lagrange_coefficients_ASTME202211 [] 10 "inner").1.headD []).getD 2 0
        - 1043/10000| < 1/100
    ∧ |((lagrange_coefficients_ASTME202211 [] 10 "inner").1.headD []).getD 3 0
        - (-164/10000)| < 1/100
    ∧ |((lagrange_coefficients_ASTME202211 [] 10 "boundary").1.headD []).getD 0 0
        - 8517/10000| < 1/100
    ∧ |((lagrange_coefficients_ASTME202211 [] 10 "boundary").1.headD []).getD 1 0
        - 1968/10000| < 1/100
    ∧ |((lagrange_coefficients_ASTME202211 [] 10 "boundary").1.headD []).getD 2 0
        - (-486/10000)| < 1/100 := by
  norm_num [lagrange_ASTM_empty_cache, lagrange_coefficients_ASTME202211_compute,
    linspace, lagrange_coefficients, lowerStr_inner, lowerStr_boundary,
    boundary_ne_inner, List.range_succ, List.replicate, abs_lt]

/-- Claim C9: for every interval ≥ 2, each row of the inner Lagrange
coefficient matrix sums to 1 (Lagrange partition of unity). -/
theorem lagrange_inner_rows_sum_to_one (interval : ℕ) (row : List ℚ)
    (h2 : 2 ≤ interval)
    (hrow : row ∈ (lagrange_coefficients_ASTME202211 [] interval "inner").1) :
    row.sum = 1 := by
  rw [lagrange_ASTM_empty_cache] at hrow
  simp only [lagrange_coefficients_ASTME202211_compute, lowerStr_inner,
    beq_self_eq_true, if_true, List.mem_map] at hrow
  obtain ⟨r, _, rfl⟩ := hrow
  exact lagrange_coefficients_sum r 4 (by norm_num)

/-- Witness: at interval 2 the single inner row is
`lagrange_coefficients (3/2) 4` and its sum is 1. -/
theorem lagrange_inner_rows_sum_to_one_witness :
    2 ≤ 2 ∧ (lagrange_coefficients (3/2) 4).sum = 1 :=
  ⟨by norm_num,
   lagrange_inner_rows_sum_to_one 2 _ (by norm_num)
     (by norm_num [lagrange_ASTM_empty_cache, lagrange_coefficients_ASTME202211_compute,
       linspace, lowerStr_inner])⟩

/-- Claim C10 (amended): for every interval ≥ 2 and interval type the matrix
has `interval - 1` rows, and each row holds `d` coefficients over node
positions `0 … d-1`, where `d = 4` for an inner interval and `d = 3` for a
boundary interval — the inner matrix has 4 columns and the boundary matrix 3
(the claim's `d+1` column count does not hold on the code). -/
theorem lagrange_matrix_dimensions (interval : ℕ) (interval_type : String)
    (h2 : 2 ≤ interval) :
    (lagrange_coefficients_ASTME202211 [] interval interval_type).1.length = interval - 1
    ∧ (∀ row ∈ (lagrange_coefficients_ASTME202211 [] interval "inner").1, row.length = 4)
    ∧ (∀ row ∈ (lagrange_coefficients_ASTME202211 [] interval "boundary").1,
        row.length = 3) := by
  refine ⟨?_, ?_, ?_⟩
  · rw [lagrange_ASTM_empty_cache]
    unfold lagrange_coefficients_ASTME202211_compute
    by_cases h : lowerStr interval_type == "inner" <;>
      simp [h, linspace_length]
  · intro row hrow
    rw [lagrange_ASTM_empty_cache] at hrow
    simp only [lagrange_coefficients_ASTME202211_compute, lowerStr_inner,
      beq_self_eq_true, if_true, List.mem_map] at hrow
    obtain ⟨r, _, rfl⟩ := hrow
    exact lagrange_coefficients_length r 4
  · intro row hrow
    rw [lagrange_ASTM_empty_cache] at hrow
    simp only [lagrange_coefficients_ASTME202211_compute, lowerStr_boundary,
      List.mem_map] at hrow
    simp only [show ("boundary" == "inner") = false from by decide, if_false,
      Bool.false_eq_true, List.mem_map] at hrow
    obtain ⟨r, _, rfl⟩ := hrow
    exact lagrange_coefficients_length r 3

/-- Witness: at interval 10 the inner matrix has 9 rows. -/
theorem lagrange_matrix_dimensions_witness :
    2 ≤ 10 ∧ (lagrange_coefficients_ASTME202211 [] 10 "inner").1.length = 10 - 1 :=
  ⟨by norm_num, (lagrange_matrix_dimensions 10 "inner" (by norm_num)).1⟩

/-- Claim C10 is false as stated: at interval 10 the first inner row holds 4
coefficients, not `d + 1 = 5`, and the first boundary row 3, not 4. -/
theorem lagrange_row_width_cex :
    ((lagrange_coefficients_ASTME202211 [] 10 "inner").1.headD []).length = 4
    ∧ ((lagrange_coefficients_ASTME202211 [] 10 "boundary").1.headD []).length = 3
    ∧ (4 : ℕ) ≠ 5 ∧ (3 : ℕ) ≠ 4 := by
  norm_num [lagrange_ASTM_empty_cache, lagrange_coefficients_ASTME202211_compute,
    linspace, lagrange_coefficients, lowerStr_inner, lowerStr_boundary,
    boundary_ne_inner, List.range_succ]

/-- Claim C5: `tristimulus_weighting_factors_ASTME202211` yields the
interval-mismatch error exactly when the CMFS or the illuminant interval
differs from 1 nm; the error names the offending operand (the CMFS check
comes first), and an erroring call leaves the cache unchanged. -/
theorem twf_interval_error_iff (cache : TwfCache) (cmfs : CMFS) (illuminant : SPD)
    (shape : SpectralShape) :
    ((∃ msg, (tristimulus_weighting_factors_ASTME202211 cache cmfs illuminant shape).1
        = Except.error msg)
      ↔ (cmfs.shape.interval ≠ 1 ∨ illuminant.shape.interval ≠ 1))
    ∧ (cmfs.shape.interval ≠ 1 →
        tristimulus_weighting_factors_ASTME202211 cache cmfs illuminant shape
          = (Except.error (intervalErrorMsg cmfs.name), cache))
    ∧ (cmfs.shape.interval = 1 → illuminant.shape.interval ≠ 1 →
        tristimulus_weighting_factors_ASTME202211 cache cmfs illuminant shape
          = (Except.error (intervalErrorMsg illuminant.name), cache)) := by
  unfold tristimulus_weighting_factors_ASTME202211
  by_cases h1 : cmfs.shape.interval = 1
  · by_cases h2 : illuminant.shape.interval = 1
    · simp only [h1, h2, ne_eq, not_true_eq_false, if_false, or_self, iff_false,
        false_implies, imp_true_iff, and_true, not_false_eq_true]
      cases hfind : cacheFind cache (cmfs.name ++ ", " ++ illuminant.name ++ ", " ++ shapeStr shape) <;>
        simp [hfind]
    · simp [h1, h2]
  · simp [h1]

/-- Claim C4 (amended): both builders memoize.  A lookup hit returns the
stored matrix with the cache unchanged; an immediately repeated call returns
the previously computed matrix without recomputation; and for the
weighting-factor builder the repeated call may present different
CMFS/illuminant data content, as long as the names and shape (the cache key)
are preserved and the repeated call's operands also satisfy the unit-interval
precondition, which the source checks before consulting the cache. -/
theorem builders_memoize (lc : LagrangeCache) (interval : ℕ) (ty : String)
    (tc : TwfCache) (cmfs : CMFS) (illuminant : SPD) (shape : SpectralShape)
    (cmfs' : CMFS) (illuminant' : SPD)
    (h1 : cmfs.shape.interval = 1) (h2 : illuminant.shape.interval = 1)
    (h1' : cmfs'.shape.interval = 1) (h2' : illuminant'.shape.interval = 1)
    (hn : cmfs'.name = cmfs.name) (hm : illuminant'.name = illuminant.name) :
    (∀ v, cacheFind lc (toString interval ++ ", " ++ ty) = some v →
        lagrange_coefficients_ASTME202211 lc interval ty = (v, lc))
    ∧ lagrange_coefficients_ASTME202211
        (lagrange_coefficients_ASTME202211 lc interval ty).2 interval ty
        = lagrange_coefficients_ASTME202211 lc interval ty
    ∧ (∀ W, cacheFind tc (cmfs.name ++ ", " ++ illuminant.name ++ ", " ++ shapeStr shape)
          = some W →
        tristimulus_weighting_factors_ASTME202211 tc cmfs illuminant shape
          = (Except.ok W, tc))
    ∧ tristimulus_weighting_factors_ASTME202211
        (tristimulus_weighting_factors_ASTME202211 tc cmfs illuminant shape).2
        cmfs' illuminant' shape
        = tristimulus_weighting_factors_ASTME202211 tc cmfs illuminant shape := by
  refine ⟨?_, ?_, ?_, ?_⟩
  · intro v hv
    simp [lagrange_coefficients_ASTME202211, hv]
  · cases hf : cacheFind lc (toString interval ++ ", " ++ ty) <;>
      simp [lagrange_coefficients_ASTME202211, hf, cacheFind_insert_self]
  · intro W hW
    simp [tristimulus_weighting_factors_ASTME202211, h1, h2, hW]
  · cases hf : cacheFind tc (cmfs.name ++ ", " ++ illuminant.name ++ ", " ++ shapeStr shape) <;>
      simp [tristimulus_weighting_factors_ASTME202211, h1, h2, h1', h2', hn, hm, hf,
        cacheFind_insert_self]

/-- Witness: `cmfsA3` shares `cmfsA`'s name and unit interval but has
different values; after building for `cmfsA` the repeated call with `cmfsA3`
returns the cached result unchanged. -/
theorem builders_memoize_witness :
    cmfsA.shape.interval = 1 ∧ illA.shape.interval = 1 ∧ cmfsA3.name = cmfsA.name
    ∧ tristimulus_weighting_factors_ASTME202211
        (tristimulus_weighting_factors_ASTME202211 [] cmfsA illA shapeT).2
        cmfsA3 illA shapeT
      = tristimulus_weighting_factors_ASTME202211 [] cmfsA illA shapeT :=
  ⟨rfl, rfl, rfl,
   (builders_memoize [] 2 "inner" [] cmfsA illA shapeT cmfsA3 illA
     rfl rfl rfl rfl rfl rfl).2.2.2⟩

/-- Claim C4 is false as stated: after a successful build for `cmfsA`, a
repeated call under the same cache key (`cmfsA2` shares `cmfsA`'s name) but
with data content of 2 nm spacing raises the interval-mismatch error instead
of returning the previously computed matrix. -/
theorem twf_memoization_data_content_cex :
    cmfsA2.name = cmfsA.name
    ∧ (tristimulus_weighting_factors_ASTME202211
        (tristimulus_weighting_factors_ASTME202211 [] cmfsA illA shapeT).2
        cmfsA2 illA shapeT).1
      = Except.error (intervalErrorMsg cmfsA2.name)
    ∧ (tristimulus_weighting_factors_ASTME202211 [] cmfsA illA shapeT).1
      ≠ (tristimulus_weighting_factors_ASTME202211
          (tristimulus_weighting_factors_ASTME202211 [] cmfsA illA shapeT).2
          cmfsA2 illA shapeT).1 := by
  refine ⟨rfl, ?_, ?_⟩
  · norm_num [tristimulus_weighting_factors_ASTME202211, cmfsA2]
  · norm_num [tristimulus_weighting_factors_ASTME202211, cacheFind, cmfsA, cmfsA2,
      illA, shapeT]
    exact fun h => Except.noConfusion h

lemma twfYSum_scale (W : List (ℚ × ℚ × ℚ)) (c : ℚ) :
    twfYSum (W.map (fun t => (t.1 * c, t.2.1 * c, t.2.2 * c))) = twfYSum W * c := by
  induction W with
  | nil => simp [twfYSum]
  | cons t ts ih =>
      simp only [twfYSum, List.map_cons, List.sum_cons] at ih ⊢
      rw [ih]
      ring

lemma ratStep_two : ratStep 2 = 2 := by decide

lemma lagrange_compute_two_boundary :
    lagrange_coefficients_ASTME202211_compute 2 "boundary" = [[3/8, 3/4, -1/8]] := by
  norm_num [lagrange_coefficients_ASTME202211_compute, linspace, lagrange_coefficients,
    lowerStr_boundary, boundary_ne_inner, List.range_succ]

lemma lagrange_compute_two_inner :
    lagrange_coefficients_ASTME202211_compute 2 "inner" = [[-1/16, 9/16, 9/16, -1/16]] := by
  norm_num [lagrange_coefficients_ASTME202211_compute, linspace, lagrange_coefficients,
    lowerStr_inner, List.range_succ]

/-- Claim C1 (amended): under the unit-interval precondition, and whenever the
pre-scaling Y-column sum is nonzero, the freshly built weighting-factor table
has a second (Y) column summing to exactly 100: the whole table is scaled by
`100` divided by that pre-scaling sum. -/
theorem twf_Y_column_sums_to_100 (cmfs : CMFS) (illuminant : SPD) (shape : SpectralShape)
    (h1 : cmfs.shape.interval = 1) (h2 : illuminant.shape.interval = 1)
    (hs : twfYSum (tristimulus_weighting_factors_accumulate cmfs illuminant shape) ≠ 0) :
    (tristimulus_weighting_factors_ASTME202211 [] cmfs illuminant shape).1
      = Except.ok (tristimulus_weighting_factors_compute cmfs illuminant shape)
    ∧ twfYSum (tristimulus_weighting_factors_compute cmfs illuminant shape) = 100 := by
  constructor
  · simp [tristimulus_weighting_factors_ASTME202211, h1, h2, cacheFind]
  · unfold tristimulus_weighting_factors_compute
    rw [twfYSum_scale]
    rw [mul_div_assoc', mul_comm, mul_div_assoc, div_self hs, mul_one]

/-- Witness: the concrete table for `cmfsA`, `illA`, 2 nm target shape has a
nonzero pre-scaling Y sum and a scaled Y column summing to 100. -/
theorem twf_Y_column_sums_to_100_witness :
    cmfsA.shape.interval = 1 ∧ illA.shape.interval = 1
    ∧ twfYSum (tristimulus_weighting_factors_accumulate cmfsA illA shapeT) ≠ 0
    ∧ twfYSum (tristimulus_weighting_factors_compute cmfsA illA shapeT) = 100 := by
  have hacc : tristimulus_weighting_factors_accumulate cmfsA illA shapeT
      = [(5/4, 5/4, 5/4), (5/2, 5/2, 5/2), (5/4, 5/4, 5/4)] := by
    simp [tristimulus_weighting_factors_accumulate, cmfsA, illA, shapeT,
      CMFS.values, SPD.values, ratStep_two, sliceEvery, List.enum, List.enumFrom,
      lagrange_compute_two_boundary, lagrange_compute_two_inner, List.range_succ,
      firstIntervalPhase, lastIntervalPhase, intermediatePhase, tailPhase,
      addAt, pyIdx, getQ, getT, mget, tripleGet, tripleAdd]
    all_goals norm_num
  have hs : twfYSum (tristimulus_weighting_factors_accumulate cmfsA illA shapeT) ≠ 0 := by
    rw [hacc]
    norm_num [twfYSum]
  exact ⟨rfl, rfl, hs, (twf_Y_column_sums_to_100 cmfsA illA shapeT rfl rfl hs).2⟩

/-- Claim C1 is false as stated: with the all-zero unit-interval illuminant
`illZ` every precondition of the claim holds, yet the returned table's Y
column sums to 0, not 100 — the pre-scaling Y sum is zero, so the rational
scale factor `100 / 0 = 0` zeroes the table (the floating-point code divides
by zero there and produces non-finite entries, which do not sum to 100
either). -/
theorem twf_Y_column_zero_illuminant_cex :
    cmfsA.shape.interval = 1 ∧ illZ.shape.interval = 1
    ∧ (tristimulus_weighting_factors_ASTME202211 [] cmfsA illZ shapeT).1
        = Except.ok (tristimulus_weighting_factors_compute cmfsA illZ shapeT)
    ∧ twfYSum (tristimulus_weighting_factors_compute cmfsA illZ shapeT) = 0
    ∧ (0 : ℚ) ≠ 100 := by
  have hacc : tristimulus_weighting_factors_accumulate cmfsA illZ shapeT
      = [(0, 0, 0), (0, 0, 0), (0, 0, 0)] := by
    simp [tristimulus_weighting_factors_accumulate, cmfsA, illZ, shapeT,
      CMFS.values, SPD.values, ratStep_two, sliceEvery, List.enum, List.enumFrom,
      lagrange_compute_two_boundary, lagrange_compute_two_inner, List.range_succ,
      firstIntervalPhase, lastIntervalPhase, intermediatePhase, tailPhase,
      addAt, pyIdx, getQ, getT, mget, tripleGet, tripleAdd]
  refine ⟨rfl, rfl, ?_, ?_, by norm_num⟩
  · simp [tristimulus_weighting_factors_ASTME202211, cacheFind, cmfsA, illZ]
  · simp only [tristimulus_weighting_factors_compute]
    rw [hacc]
    norm_num [twfYSum]

lemma foldl_min_lt_iff (a : ℚ) (xs : List ℚ) : ∀ (x : ℚ),
    xs.foldl min x < a ↔ x < a ∨ ∃ w ∈ xs, w < a := by
  induction xs with
  | nil => simp
  | cons y ys ih =>
      intro x
      simp only [List.foldl_cons, ih, min_lt_iff, List.mem_cons]
      constructor
      · rintro (((h | h) | ⟨w, hw, hlt⟩))
        · exact Or.inl h
        · exact Or.inr ⟨y, Or.inl rfl, h⟩
        · exact Or.inr ⟨w, Or.inr hw, hlt⟩
      · rintro (h | ⟨w, (rfl | hw), hlt⟩)
        · exact Or.inl (Or.inl h)
        · exact Or.inl (Or.inr hlt)
        · exact Or.inr ⟨w, hw, hlt⟩

lemma foldl_max_gt_iff (b : ℚ) (xs : List ℚ) : ∀ (x : ℚ),
    b < xs.foldl max x ↔ b < x ∨ ∃ w ∈ xs, b < w := by
  induction xs with
  | nil => simp
  | cons y ys ih =>
      intro x
      simp only [List.foldl_cons, ih, lt_max_iff, List.mem_cons]
      constructor
      · rintro (((h | h) | ⟨w, hw, hlt⟩))
        · exact Or.inl h
        · exact Or.inr ⟨y, Or.inl rfl, h⟩
        · exact Or.inr ⟨w, Or.inr hw, hlt⟩
      · rintro (h | ⟨w, (rfl | hw), hlt⟩)
        · exact Or.inl (Or.inl h)
        · exact Or.inl (Or.inr hlt)
        · exact Or.inr ⟨w, hw, hlt⟩

lemma npMin_lt_iff (a x : ℚ) (xs : List ℚ) :
    npMin (x :: xs) < a ↔ ∃ w ∈ x :: xs, w < a := by
  simp only [npMin, foldl_min_lt_iff, List.mem_cons]
  constructor
  · rintro (h | ⟨w, hw, hlt⟩)
    · exact ⟨x, Or.inl rfl, h⟩
    · exact ⟨w, Or.inr hw, hlt⟩
  · rintro ⟨w, (rfl | hw), hlt⟩
    · exact Or.inl hlt
    · exact Or.inr ⟨w, hw, hlt⟩

lemma npMax_gt_iff (b x : ℚ) (xs : List ℚ) :
    b < npMax (x :: xs) ↔ ∃ w ∈ x :: xs, b < w := by
  simp only [npMax, foldl_max_gt_iff, List.mem_cons]
  constructor
  · rintro (h | ⟨w, hw, hlt⟩)
    · exact ⟨x, Or.inl rfl, h⟩
    · exact ⟨w, Or.inr hw, hlt⟩
  · rintro ⟨w, (rfl | hw), hlt⟩
    · exact Or.inl hlt
    · exact Or.inr ⟨w, hw, hlt⟩

lemma chooseInterpolator_no_domain_error (method : Option String) (u : Bool) (msg : String) :
    chooseInterpolator method u ≠ Except.error (WtError.domainRange msg) := by
  cases method with
  | none => cases u <;> simp [chooseInterpolator]
  | some s =>
      simp only [chooseInterpolator]
      split_ifs <;> simp

/-- Claim C7: `wavelength_to_XYZ` yields the domain-range error — its message
reports the offending wavelength argument together with the valid bounds —
exactly when some requested wavelength lies strictly below `shape.start` or
strictly above `shape.end`; wavelengths exactly at the endpoints are
accepted. -/
theorem wavelength_to_XYZ_domain_error_iff
    (interpEval : InterpMethod → List ℚ → List ℚ → ℚ → ℚ)
    (wl : List ℚ) (cmfs : CMFS) (method : Option String) (hne : wl ≠ []) :
    wavelength_to_XYZ interpEval wl cmfs method
        = Except.error (WtError.domainRange
            (domainErrorMsg wl cmfs.shape.start cmfs.shape.stop))
      ↔ ∃ w ∈ wl, w < cmfs.shape.start ∨ cmfs.shape.stop < w := by
  obtain ⟨x, xs, rfl⟩ := List.exists_cons_of_ne_nil hne
  have hiff : (npMin (x :: xs) < cmfs.shape.start ∨ npMax (x :: xs) > cmfs.shape.stop)
      ↔ ∃ w ∈ x :: xs, w < cmfs.shape.start ∨ cmfs.shape.stop < w := by
    rw [gt_iff_lt, npMin_lt_iff, npMax_gt_iff]
    constructor
    · rintro (⟨w, hw, h⟩ | ⟨w, hw, h⟩)
      · exact ⟨w, hw, Or.inl h⟩
      · exact ⟨w, hw, Or.inr h⟩
    · rintro ⟨w, hw, (h | h)⟩
      · exact Or.inl ⟨w, hw, h⟩
      · exact Or.inr ⟨w, hw, h⟩
  unfold wavelength_to_XYZ
  by_cases hd : npMin (x :: xs) < cmfs.shape.start ∨ npMax (x :: xs) > cmfs.shape.stop
  · rw [if_pos hd]
    simpa using hiff.mp hd
  · rw [if_neg hd]
    have hno : ¬ ∃ w ∈ x :: xs, w < cmfs.shape.start ∨ cmfs.shape.stop < w :=
      fun h => hd (hiff.mpr h)
    simp only [hno, iff_false]
    by_cases hall : (x :: xs).all (fun w => decide (w ∈ cmfs.wavelengths)) = true
    · rw [if_pos hall]
      intro h
      exact Except.noConfusion h
    · rw [if_neg hall]
      cases hchoose : chooseInterpolator method cmfs.is_uniform with
      | error e =>
          simp only [hchoose]
          intro h
          injection h with h'
          rw [h'] at hchoose
          exact chooseInterpolator_no_domain_error method cmfs.is_uniform _ hchoose
      | ok k =>
          simp only [hchoose]
          intro h
          exact Except.noConfusion h

/-- Witness: wavelength 5 lies above `cmfsG`'s upper bound 4, so the
domain-range error is raised. -/
theorem wavelength_to_XYZ_domain_error_iff_witness :
    ([(5 : ℚ)] ≠ []) ∧
    wavelength_to_XYZ interpZero [5] cmfsG none
      = Except.error (WtError.domainRange
          (domainErrorMsg [5] cmfsG.shape.start cmfsG.shape.stop)) :=
  ⟨by simp,
   (wavelength_to_XYZ_domain_error_iff interpZero [5] cmfsG none (by simp)).mpr
     ⟨5, by simp, Or.inr (by norm_num [cmfsG])⟩⟩

/-- Claim C8: when every requested wavelength is a stored grid point of the
CMFS (and lies within the domain bounds), `wavelength_to_XYZ` returns the
stored rows directly with no interpolation — the success payload records that
no interpolator ran — and it does so for every value of the method argument,
including unrecognized names, because method validation is only reached when
interpolation is required. -/
theorem wavelength_to_XYZ_grid_points_stored
    (interpEval : InterpMethod → List ℚ → List ℚ → ℚ → ℚ)
    (wl : List ℚ) (cmfs : CMFS) (method : Option String)
    (hne : wl ≠ [])
    (hdom : ∀ w ∈ wl, cmfs.shape.start ≤ w ∧ w ≤ cmfs.shape.stop)
    (hmem : ∀ w ∈ wl, w ∈ cmfs.wavelengths) :
    wavelength_to_XYZ interpEval wl cmfs method
      = Except.ok (none, wl.map (fun w => lookupD cmfs.data w (0, 0, 0))) := by
  obtain ⟨x, xs, rfl⟩ := List.exists_cons_of_ne_nil hne
  have h1 : ¬(npMin (x :: xs) < cmfs.shape.start ∨ npMax (x :: xs) > cmfs.shape.stop) := by
    rw [gt_iff_lt, npMin_lt_iff, npMax_gt_iff]
    rintro (⟨w, hw, hlt⟩ | ⟨w, hw, hlt⟩)
    · exact absurd hlt (not_lt.mpr (hdom w hw).1)
    · exact absurd hlt (not_lt.mpr (hdom w hw).2)
  have h2 : (x :: xs).all (fun w => decide (w ∈ cmfs.wavelengths)) = true :=
    List.all_eq_true.mpr (fun w hw => decide_eq_true (hmem w hw))
  unfold wavelength_to_XYZ
  rw [if_neg h1, if_pos h2]

/-- Witness: wavelength 2 is a grid point of `cmfsG`, and even an
unrecognized method name returns the stored row directly. -/
theorem wavelength_to_XYZ_grid_points_stored_witness :
    ([(2 : ℚ)] ≠ []) ∧ ((2 : ℚ) ∈ cmfsG.wavelengths) ∧
    wavelength_to_XYZ interpZero [2] cmfsG (some "garbage")
      = Except.ok (none, [2].map (fun w => lookupD cmfsG.data w (0, 0, 0))) :=
  ⟨by simp, by decide,
   wavelength_to_XYZ_grid_points_stored interpZero [2] cmfsG (some "garbage")
     (by simp) (by decide) (by decide)⟩

lemma wavelength_to_XYZ_interp_branch
    (interpEval : InterpMethod → List ℚ → List ℚ → ℚ → ℚ)
    (wl : List ℚ) (cmfs : CMFS) (method : Option String)
    (hdom : ¬(npMin wl < cmfs.shape.start ∨ npMax wl > cmfs.shape.stop))
    (hmem : ¬((wl.all (fun w => decide (w ∈ cmfs.wavelengths))) = true)) :
    wavelength_to_XYZ interpEval wl cmfs method
      = match chooseInterpolator method cmfs.is_uniform with
        | Except.error e => Except.error e
        | Except.ok k => Except.ok (some k, interpolateAll interpEval k wl cmfs) := by
  unfold wavelength_to_XYZ
  rw [if_neg hdom, if_neg hmem]

/-- Claim C6: in the interpolation-required regime the explicit method
argument selects, case-insensitively, among cubic spline, linear, pchip and
sprague; `method = None` auto-selects Sprague on uniformly spaced CMFS data
and cubic spline otherwise; forcing sprague on non-uniform data yields the
unsupported-spacing error; any other method name yields the undefined-method
error. -/
theorem wavelength_to_XYZ_method_dispatch
    (interpEval : InterpMethod → List ℚ → List ℚ → ℚ → ℚ)
    (wl : List ℚ) (cmfs : CMFS) (s : String)
    (hdom : ¬(npMin wl < cmfs.shape.start ∨ npMax wl > cmfs.shape.stop))
    (hmem : ¬((wl.all (fun w => decide (w ∈ cmfs.wavelengths))) = true)) :
    (lowerStr s = "cubic spline" →
      wavelength_to_XYZ interpEval wl cmfs (some s)
        = Except.ok (some InterpMethod.cubicSpline,
            interpolateAll interpEval InterpMethod.cubicSpline wl cmfs))
    ∧ (lowerStr s = "linear" →
      wavelength_to_XYZ interpEval wl cmfs (some s)
        = Except.ok (some InterpMethod.linear,
            interpolateAll interpEval InterpMethod.linear wl cmfs))
    ∧ (lowerStr s = "pchip" →
      wavelength_to_XYZ interpEval wl cmfs (some s)
        = Except.ok (some InterpMethod.pchip,
            interpolateAll interpEval InterpMethod.pchip wl cmfs))
    ∧ (lowerStr s = "sprague" → cmfs.is_uniform = true →
      wavelength_to_XYZ interpEval wl cmfs (some s)
        = Except.ok (some InterpMethod.sprague,
            interpolateAll interpEval InterpMethod.sprague wl cmfs))
    ∧ (lowerStr s = "sprague" → cmfs.is_uniform = false →
      wavelength_to_XYZ interpEval wl cmfs (some s)
        = Except.error (WtError.spragueSpacing spragueErrorMsg))
    ∧ (lowerStr s ∉ (["cubic spline", "linear", "pchip", "sprague"] : List String) →
      wavelength_to_XYZ interpEval wl cmfs (some s)
        = Except.error (WtError.undefinedMethod (undefinedMethodMsg (lowerStr s))))
    ∧ (wavelength_to_XYZ interpEval wl cmfs none
        = Except.ok
            (some (if cmfs.is_uniform then InterpMethod.sprague
                   else InterpMethod.cubicSpline),
             interpolateAll interpEval
               (if cmfs.is_uniform then InterpMethod.sprague
                else InterpMethod.cubicSpline) wl cmfs)) := by
  refine ⟨?_, ?_, ?_, ?_, ?_, ?_, ?_⟩
  · intro h
    rw [wavelength_to_XYZ_interp_branch interpEval wl cmfs _ hdom hmem]
    simp [chooseInterpolator, h]
  · intro h
    rw [wavelength_to_XYZ_interp_branch interpEval wl cmfs _ hdom hmem]
    simp [chooseInterpolator, h]
  · intro h
    rw [wavelength_to_XYZ_interp_branch interpEval wl cmfs _ hdom hmem]
    simp [chooseInterpolator, h]
  · intro h hu
    rw [wavelength_to_XYZ_interp_branch interpEval wl cmfs _ hdom hmem]
    simp [chooseInterpolator, h, hu]
  · intro h hu
    rw [wavelength_to_XYZ_interp_branch interpEval wl cmfs _ hdom hmem]
    simp [chooseInterpolator, h, hu]
  · intro h
    simp only [List.mem_cons, List.mem_singleton, not_or] at h
    obtain ⟨h1, h2, h3, h4⟩ := h
    rw [wavelength_to_XYZ_interp_branch interpEval wl cmfs _ hdom hmem]
    simp [chooseInterpolator, h1, h2, h3, h4]
  · rw [wavelength_to_XYZ_interp_branch interpEval wl cmfs _ hdom hmem]
    cases hu : cmfs.is_uniform <;> simp [chooseInterpolator, hu]

/-- Witness: the explicit method "LINEAR" on `cmfsG` (wavelength 1 requires
interpolation) selects the linear strategy case-insensitively. -/
theorem wavelength_to_XYZ_method_dispatch_witness :
    lowerStr "LINEAR" = "linear" ∧
    wavelength_to_XYZ interpZero [1] cmfsG (some "LINEAR")
      = Except.ok (some InterpMethod.linear,
          interpolateAll interpZero InterpMethod.linear [1] cmfsG) :=
  ⟨by decide,
   (wavelength_to_XYZ_method_dispatch interpZero [1] cmfsG "LINEAR"
     (by decide) (by decide)).2.1 (by decide)⟩

lemma zipWith_map_same {α β γ δ : Type} (f : β → γ → δ) (g : α → β) (h : α → γ) :
    ∀ l : List α, List.zipWith f (l.map g) (l.map h) = l.map (fun x => f (g x) (h x)) := by
  intro l
  induction l with
  | nil => rfl
  | cons a t ih => simp [ih]

lemma shape_range_nodup (s : SpectralShape) (h : 0 < s.interval) : s.range.Nodup := by
  unfold SpectralShape.range
  refine List.Nodup.map ?_ (List.nodup_range _)
  intro a b hab
  have h1 : (a : ℚ) * s.interval = (b : ℚ) * s.interval := by
    have := add_left_cancel hab
    exact this
  have h2 : (a : ℚ) = b := mul_right_cancel₀ (ne_of_gt h) h1
  exact_mod_cast h2

lemma map_snd_eq_grid_lookup {α : Type} (d0 : α) (data : List (ℚ × α)) :
    ∀ (grid : List ℚ),
      data.map (fun p => p.1) = grid → grid.Nodup →
      data.map (fun p => p.2) = grid.map (fun w => lookupD data w d0) := by
  induction data with
  | nil =>
      intro grid hg _
      simp only [List.map_nil] at hg
      subst hg
      simp
  | cons p rest ih =>
      intro grid hg hnd
      obtain ⟨w, v⟩ := p
      cases grid with
      | nil => simp at hg
      | cons g gr =>
          simp only [List.map_cons, List.cons.injEq] at hg
          obtain ⟨hgw, hg'⟩ := hg
          subst hgw
          have hw : w ∉ gr := (List.nodup_cons.mp hnd).1
          have hnd' : gr.Nodup := (List.nodup_cons.mp hnd).2
          simp only [List.map_cons]
          have hd : lookupD ((w, v) :: rest) w d0 = v := by
            simp [lookupD, List.find?]
          rw [hd]
          congr 1
          rw [ih gr hg' hnd']
          apply List.map_congr_left
          intro y hy
          have hyw : ¬((w, v).1 = y) := by
            intro h
            simp only [] at h
            exact hw (h ▸ hy)
          simp only [lookupD]
          rw [List.find?_cons_of_neg]
          simp [hyw]

lemma zeros_values (spd : SPD) (shape : SpectralShape) :
    (spd.zeros shape).values = shape.range.map (fun w => lookupD spd.data w 0) := by
  simp [SPD.zeros, SPD.values, List.map_map, Function.comp]

lemma ones_spd_values (shape : SpectralShape) :
    (ones_spd shape).values = shape.range.map (fun _ => (1 : ℚ)) := by
  simp only [ones_spd, SPD.values, List.map_map]
  rfl

lemma cmfs_channels_on_grid (cmfs : CMFS)
    (hc : cmfs.data.map (fun p => p.1) = cmfs.shape.range)
    (hnd : cmfs.shape.range.Nodup) :
    cmfs.x_bar = cmfs.shape.range.map (fun w => (lookupD cmfs.data w (0, 0, 0)).1)
    ∧ cmfs.y_bar = cmfs.shape.range.map (fun w => (lookupD cmfs.data w (0, 0, 0)).2.1)
    ∧ cmfs.z_bar = cmfs.shape.range.map (fun w => (lookupD cmfs.data w (0, 0, 0)).2.2) := by
  have hvals : cmfs.data.map (fun p => p.2)
      = cmfs.shape.range.map (fun w => lookupD cmfs.data w ((0 : ℚ), (0 : ℚ), (0 : ℚ))) :=
    map_snd_eq_grid_lookup (0, 0, 0) cmfs.data _ hc hnd
  have key : ∀ (f : (ℚ × ℚ × ℚ) → ℚ),
      cmfs.data.map (fun p => f p.2)
        = cmfs.shape.range.map (fun w => f (lookupD cmfs.data w (0, 0, 0))) := by
    intro f
    calc cmfs.data.map (fun p => f p.2)
        = (cmfs.data.map (fun p => p.2)).map f := by rw [List.map_map]; rfl
      _ = (cmfs.shape.range.map
            (fun w => lookupD cmfs.data w ((0 : ℚ), (0 : ℚ), (0 : ℚ)))).map f := by rw [hvals]
      _ = cmfs.shape.range.map (fun w => f (lookupD cmfs.data w (0, 0, 0))) := by
          rw [List.map_map]; rfl
  exact ⟨key (fun t => t.1), key (fun t => t.2.1), key (fun t => t.2.2)⟩

/-- Claim C2: `spectral_to_XYZ` computes exactly the specification formula —
the SPD (and a given illuminant) are resampled to the CMFS shape when shapes
differ, a missing illuminant defaults to the all-ones SPD, and the result is
the triple of sums of `spd·x̄·I`, `spd·ȳ·I`, `spd·z̄·I` over the CMFS
wavelength grid, each scaled by `100 / Σ(ȳ·I)`.  The well-formedness
hypotheses say that the CMFS data (and any operand whose shape already equals
the CMFS shape, hence is not resampled) lies on the CMFS wavelength grid. -/
theorem spectral_to_XYZ_refines_spec (spd : SPD) (cmfs : CMFS) (illuminant : Option SPD)
    (hpos : 0 < cmfs.shape.interval)
    (hc : cmfs.data.map (fun p => p.1) = cmfs.shape.range)
    (hs : spd.shape = cmfs.shape → spd.data.map (fun p => p.1) = cmfs.shape.range)
    (hi : ∀ x, illuminant = some x → x.shape = cmfs.shape →
        x.data.map (fun p => p.1) = cmfs.shape.range) :
    spectral_to_XYZ spd cmfs illuminant = spectral_to_XYZ_spec spd cmfs illuminant := by
  have hnd := shape_range_nodup cmfs.shape hpos
  obtain ⟨hx, hy, hz⟩ := cmfs_channels_on_grid cmfs hc hnd
  have hspd : (if spd.shape ≠ cmfs.shape then spd.zeros cmfs.shape else spd).values
      = cmfs.shape.range.map (fun w => lookupD spd.data w 0) := by
    by_cases hsh : spd.shape = cmfs.shape
    · rw [if_neg (by simp [hsh])]
      exact map_snd_eq_grid_lookup 0 spd.data _ (hs hsh) hnd
    · rw [if_pos hsh]
      exact zeros_values spd cmfs.shape
  cases illuminant with
  | none =>
      unfold spectral_to_XYZ spectral_to_XYZ_spec
      simp only []
      rw [hspd, ones_spd_values, hx, hy, hz]
      rw [zipWith_map_same, zipWith_map_same, zipWith_map_same, zipWith_map_same,
        zipWith_map_same, zipWith_map_same, zipWith_map_same]
  | some i =>
      have hill : (if i.shape ≠ cmfs.shape then i.zeros cmfs.shape else i).values
          = cmfs.shape.range.map (fun w => lookupD i.data w 0) := by
        by_cases hsh : i.shape = cmfs.shape
        · rw [if_neg (by simp [hsh])]
          exact map_snd_eq_grid_lookup 0 i.data _ (hi i rfl hsh) hnd
        · rw [if_pos hsh]
          exact zeros_values i cmfs.shape
      unfold spectral_to_XYZ spectral_to_XYZ_spec
      simp only []
      rw [hspd, hill, hx, hy, hz]
      rw [zipWith_map_same, zipWith_map_same, zipWith_map_same, zipWith_map_same,
        zipWith_map_same, zipWith_map_same, zipWith_map_same]

lemma shape_range_021 : (SpectralShape.mk 0 2 1).range = [0, 1, 2] := by
  have hcount : (SpectralShape.mk 0 2 1).count = 3 := by
    have h1 : ((2 : ℚ) - 0) / 1 = 2 := by norm_num
    simp only [SpectralShape.count, h1]
    decide
  rw [SpectralShape.range, hcount]
  norm_num [List.range_succ]

/-- Witness: the integrator refinement at a concrete instance — `spdB` has a
different shape than `cmfsB` and is resampled; `illB` shares the shape. -/
theorem spectral_to_XYZ_refines_spec_witness :
    (0 : ℚ) < cmfsB.shape.interval ∧
    spectral_to_XYZ spdB cmfsB (some illB) = spectral_to_XYZ_spec spdB cmfsB (some illB) := by
  refine ⟨by norm_num [cmfsB], spectral_to_XYZ_refines_spec spdB cmfsB (some illB)
    (by norm_num [cmfsB]) ?_ ?_ ?_⟩
  · show cmfsB.data.map (fun p => p.1) = cmfsB.shape.range
    have : cmfsB.shape.range = [0, 1, 2] := shape_range_021
    rw [this]
    simp [cmfsB]
  · intro h
    exact absurd h (by decide)
  · intro x hx hsh
    have hx' : x = illB := by
      injection hx with h
      exact h.symm
    subst hx'
    have : cmfsB.shape.range = [0, 1, 2] := shape_range_021
    rw [this]
    simp [illB]
